import Mathlib

/-
  Verification development for the slonik-plus repository.

  The definitions below are a shallow embedding of the TypeScript sources:
    src/db-record.ts         (schema config, column sets, change tracking, where clauses)
    src/query/set-worker.ts  (insert / upsert / update synthesis and result reconciliation)
    src/query/get-worker.ts  (select hydration)
    src/query/delete-worker.ts (delete synthesis)
    src/pool-proto.ts        (isValidPostgresIdentifier, pool config)

  Modelling conventions:
  * JavaScript primitive values are modelled by `JsValue` (undefined, null,
    integers, strings, booleans).  Strict equality `===` on these primitives is
    `JsValue` equality.
  * A JS object used as a plain record is an association list
    `List (String × JsValue)`; reading an absent property yields `vUndefined`,
    property assignment replaces the value in place or appends a new pair
    (matching JS insertion-order semantics).
  * A value that is `boolean | transform-function` in TS (the `in` / `out`
    column settings) is the inductive `Includer`.
  * Code that can `throw` is modelled in `Except String`.
  * Rendered SQL is modelled as a `String`; whitespace of the TS template
    literals is normalised to single spaces and parameter values are inlined
    with `renderValue` (slonik would bind them); the token structure
    (identifiers, parentheses, keywords, clause order) follows the source.
-/

deriving instance DecidableEq for Except

namespace SlonikPlus

/-- Whether an exception-returning computation threw. -/
def isError {ε α : Type} : Except ε α → Bool
  | .error _ => true
  | .ok _ => false

/-- Mapping a fallible function over an array, stopping at the first thrown
exception (the semantics of `Array.prototype.map` with a throwing callback,
and of `mapM` in the `Except` monad). -/
def exceptMapList {ε α β : Type} (f : α → Except ε β) : List α → Except ε (List β)
  | [] => .ok []
  | x :: xs =>
      match f x with
      | .error e => .error e
      | .ok y => (exceptMapList f xs).map fun ys => y :: ys

/-- A JavaScript primitive value. -/
inductive JsValue where
  | vUndefined
  | vNull
  | vInt (n : Int)
  | vStr (s : String)
  | vBool (b : Bool)
deriving DecidableEq, Repr

/-- JS truthiness test, negated: `!value` for the primitive values we model. -/
def falsy : JsValue → Bool
  | .vUndefined => true
  | .vNull => true
  | .vInt n => n == 0
  | .vStr s => s == ""
  | .vBool b => !b

/-- JS `value == null` (loose), i.e. value is `null` or `undefined`. -/
def JsValue.isNullish : JsValue → Bool
  | .vUndefined => true
  | .vNull => true
  | _ => false

/-- The TS type `boolean | ((v: any) => any)` used for the `in` / `out`
column settings: either a plain flag or a transform function. -/
inductive Includer where
  | flag (b : Bool)
  | fn (f : JsValue → JsValue)

/-- JS strict comparison `x === false` for an `Includer`. -/
def Includer.isFalseFlag : Includer → Bool
  | .flag false => true
  | _ => false

/-- JS `typeof x === 'function'` for an `Includer`. -/
def Includer.isFn : Includer → Bool
  | .fn _ => true
  | _ => false

/-- `ColumnConfig` from src/db-record.ts.  Field `colIn` models the TS field
`in` (a reserved word in Lean), `name` is the manual DB name (defaulted at
registration time), `primaryKey` models `true | number` with `true ↦ 1`.
The defaults mirror `ColumnConfig.defaults`
(`exclude: false, in: true, out: true, autoLoad: true`). -/
structure ColumnConfig where
  exclude : Bool := false
  colIn : Includer := .flag true
  out : Includer := .flag true
  excludeFromUpdate : Bool := false
  name : Option String := none
  type : String := "text"
  autoLoad : Bool := true
  primaryKey : Option Int := none

/-- `ColumnDetail` from src/db-record.ts. -/
structure ColumnDetail where
  name : String
  dbName : String
  config : ColumnConfig

/-- The `columns` dictionary of a registered record config, in declaration
order (JS objects preserve string-key insertion order). -/
def Columns := List (String × ColumnConfig)

/-- `RecordConfig.WithColumns` from src/db-record.ts (the `query` default
options are not needed for the claims below). -/
structure RecordConfigW where
  table : Option String := none
  convertCases : Bool := true
  columns : List (String × ColumnConfig) := []

/-- A `DbRecord` instance: own enumerable properties plus the hidden
non-enumerable `_original` snapshot (the `_metadata` map is irrelevant to
the claims and omitted). -/
structure DbRecordObj where
  values : List (String × JsValue)
  original : Option (List (String × JsValue)) := none
deriving DecidableEq, Repr

instance : Inhabited DbRecordObj := ⟨⟨[], none⟩⟩

/-- Property read `obj[k]` on a plain JS object: absent keys give
`undefined`. -/
def jsGetP (l : List (String × JsValue)) (k : String) : JsValue :=
  (l.lookup k).getD .vUndefined

/-- `Object.prototype.hasOwnProperty.call(obj, k)`. -/
def hasProp (l : List (String × JsValue)) (k : String) : Bool :=
  (l.lookup k).isSome

/-- JS property assignment `obj[k] = v`: replaces the value in place if the
key exists, otherwise appends (insertion order). -/
def jsSetKey {β : Type} (l : List (String × β)) (k : String) (v : β) : List (String × β) :=
  if l.any (fun p => p.1 = k) then l.map (fun p => if p.1 = k then (k, v) else p)
  else l ++ [(k, v)]

/-- `Object.assign(target, source)` over our association lists. -/
def objectAssign (l news : List (String × JsValue)) : List (String × JsValue) :=
  news.foldl (fun acc p => jsSetKey acc p.1 p.2) l

/-- `new Map(pairs).get k`: a JS `Map` built from an entry list keeps, for a
duplicated key, the last value; `get` of a missing key is `undefined`. -/
def jsMapGet {β : Type} (pairs : List (String × β)) (k : String) : Option β :=
  pairs.foldl (fun acc p => if p.1 = k then some p.2 else acc) none

/-- Building a JS `Map` from an entry list: first occurrence fixes the
position of a key, the last occurrence fixes its value. -/
def jsMapOfList {β : Type} (pairs : List (String × β)) : List (String × β) :=
  pairs.foldl (fun acc p => jsSetKey acc p.1 p.2) []

/- ********************************************************************** -/
/-  db-record.ts static methods                                           -/
/- ********************************************************************** -/

/-- `DbRecord.getInsertColumns`: columns with `config.out !== false` and not
excluded.  `config.name!` is always set after registration; the model reads
it with a `""` default. -/
def getInsertColumns (cols : List (String × ColumnConfig)) : List ColumnDetail :=
  cols.filterMap fun p =>
    if !p.2.out.isFalseFlag && !p.2.exclude then
      some ⟨p.1, p.2.name.getD "", p.2⟩
    else none

/-- `DbRecord.getSelectColumns`: columns with `config.in !== false` and not
excluded. -/
def getSelectColumns (cols : List (String × ColumnConfig)) : List ColumnDetail :=
  cols.filterMap fun p =>
    if !p.2.colIn.isFalseFlag && !p.2.exclude then
      some ⟨p.1, p.2.name.getD "", p.2⟩
    else none

/-- Stable insertion of `x` after all elements whose key is `≤ key x`
(the behaviour of a stable comparator sort for one element). -/
def insertByKey {α : Type} (key : α → Int) (x : α) : List α → List α
  | [] => [x]
  | b :: l => if key b ≤ key x then b :: insertByKey key x l else x :: b :: l

/-- Stable sort by an integer key, modelling JS `Array.prototype.sort` with
comparator `(a, b) => key a - key b` (stable since ES2019). -/
def sortByKey {α : Type} (key : α → Int) (l : List α) : List α :=
  l.foldl (fun acc x => insertByKey key x acc) []

/-- `DbRecord.getPrimaryKeys`: column configs whose `+primaryKey >= 0`
(`undefined` gives `NaN` and is dropped, `true` gives `1`), sorted stably by
the numeric ordinal, mapped to the column DB names (`config.name`). -/
def getPrimaryKeys (cols : List (String × ColumnConfig)) : List String :=
  ((sortByKey (fun c => c.primaryKey.getD 0)
      ((cols.map Prod.snd).filter fun c =>
        match c.primaryKey with
        | some n => decide (0 ≤ n)
        | none => false)).map
    fun c => c.name.getD "")

/-- `DbRecord.getChangedColumns`: with no `_original` snapshot, every insert
column counts as changed; otherwise exactly the insert columns whose current
value differs from the snapshot under `!==`. -/
def getChangedColumns (cols : List (String × ColumnConfig)) (rec : DbRecordObj) :
    List ColumnDetail :=
  match rec.original with
  | none => getInsertColumns cols
  | some orig =>
      (getInsertColumns cols).filter fun col =>
        jsGetP orig col.name != jsGetP rec.values col.name

/-- `isValidPostgresIdentifier` from src/utils/general.ts:
`/^[A-Za-z_][A-Za-z_0-9$]*$/.test(s)`. -/
def isValidPostgresIdentifier (s : String) : Bool :=
  match s.data with
  | [] => false
  | c :: rest =>
      (c.isAlpha || c == '_') &&
        rest.all fun ch => ch.isAlphanum || ch == '_' || ch == '$'

/-- Rendering of `sql.identifier([s])`. -/
def renderIdent (s : String) : String := "\"" ++ s ++ "\""

/-- JS `s.split('.')` (structural implementation so that concrete instances
evaluate inside the kernel). -/
def splitDotGo : List Char → List String
  | [] => [""]
  | c :: cs =>
      match splitDotGo cs with
      | [] => [""]
      | h :: t => if c = '.' then "" :: h :: t else String.mk (c :: h.data) :: t

/-- JS `s.split('.')`. -/
def splitDot (s : String) : List String := splitDotGo s.data

/-- Rendering of `sql.identifier(tableName.split('.'))`. -/
def renderTableIdent (tableName : String) : String :=
  String.intercalate "." ((splitDot tableName).map renderIdent)

/-- Rendering of a bound parameter value (slonik would bind `$n`; the model
inlines a textual form, which keeps the surrounding token structure). -/
def renderValue : JsValue → String
  | .vUndefined => "undefined"
  | .vNull => "NULL"
  | .vInt n => toString n
  | .vStr s => "." ++ s ++ "."
  | .vBool b => toString b

/-- One condition of `DbRecord.getWhereClause`: looks up the insert column
whose `dbName` is the primary key `k` (the TS non-null assertion on a failed
`find` would crash; modelled as an error), reads the instance value, rejects
every falsy value, and renders `"k" = value`. -/
def whereCondition (cols : List (String × ColumnConfig)) (rec : DbRecordObj)
    (k : String) : Except String String :=
  match (getInsertColumns cols).find? (fun c => c.dbName = k) with
  | none => .error ("TypeError: no insertable column matches primary key " ++ k)
  | some c =>
      let value := jsGetP rec.values c.name
      if falsy value then .error ("Cannot find value for primary key: " ++ k)
      else .ok (renderIdent k ++ " = " ++ renderValue value)

/-- `DbRecord.getWhereClause(true)` (the `noLeadingWhere` variant used by the
delete worker): `none` when the type declares no primary keys (TS returns
`undefined`), otherwise the list of per-key equality conditions. -/
def getWhereClauseConds (cols : List (String × ColumnConfig)) (rec : DbRecordObj) :
    Except String (Option (List String)) :=
  let primaryKeys := getPrimaryKeys cols
  if primaryKeys.isEmpty then .ok none
  else (exceptMapList (whereCondition cols rec) primaryKeys).map some

/- ********************************************************************** -/
/-  set-worker.ts                                                         -/
/- ********************************************************************** -/

/-- `SetQueryResultType` from src/query/set-worker.ts. -/
inductive SetQueryResultType where
  | None
  | Record
  | PrimaryKeys
deriving DecidableEq, Repr

/-- The write mode of `dbSetWorker`. -/
inductive SetMode where
  | insert
  | upsert
  | update
deriving DecidableEq, Repr

/-- The `columns` option: `'all'` or an explicit property-name list. -/
inductive ColumnsOpt where
  | all
  | list (l : List String)

/-- `SetQueryOptions` (the statement-level options relevant to the claims;
`startingQuery` / `finalQuery` / `transaction` / `alterSql` only wrap or
sequence statements and are omitted). -/
structure SetQueryOptions where
  conflictKey : Option (List String) := none
  columns : Option ColumnsOpt := none
  tableName : Option String := none
  syncRecords : Bool := false
  resultType : Option SetQueryResultType := none

/-- `DatabasePoolPlusConfig` from src/pool.ts. -/
structure DatabasePoolPlusConfig where
  deleteChunkMax : Nat
  insertChunkMax : Nat

/-- The result-type resolution at the top of `dbSetWorker`:
`options.resultType ??= None; if (options.syncRecords && options.resultType
=== None) options.resultType = Record`.  It runs before any validation or
statement construction. -/
def resolveResultType (syncRecords : Bool) (resultType : Option SetQueryResultType) :
    SetQueryResultType :=
  let rt := resultType.getD .None
  if syncRecords && rt == .None then .Record else rt

/-- The `knownKeys` set of `dbSetWorker`: a property name counts as known
when some record in the batch carries it as an own enumerable key
(`_original` is filtered out; it is non-enumerable anyway). -/
def knownKey (records : List DbRecordObj) (k : String) : Bool :=
  k != "_original" && records.any fun r => hasProp r.values k

/-- `primaryKeyColumns` of `dbSetWorker`: the select columns whose DB name
is among the declared primary keys. -/
def setWorkerPrimaryKeyColumns (cols : List (String × ColumnConfig)) : List ColumnDetail :=
  (getSelectColumns cols).filter fun c => (getPrimaryKeys cols).contains c.dbName

/-- Result of the `getColumns` helper of `dbSetWorker`. -/
structure GetColumnsResult where
  insertableColumns : List ColumnDetail
  updatableColumns : List ColumnDetail

/-- The `getColumns` helper of `dbSetWorker`: starts from the insert columns
restricted to known keys; an explicit list option filters by name; otherwise
`update` mode keeps only columns changed on at least one record.  The
updatable columns additionally drop `excludeFromUpdate`. -/
def getColumns (cols : List (String × ColumnConfig)) (mode : SetMode)
    (options : SetQueryOptions) (records : List DbRecordObj) : GetColumnsResult :=
  let base := (getInsertColumns cols).filter fun c => knownKey records c.name
  let columns :=
    match options.columns with
    | some (.list l) => base.filter fun c => l.contains c.name
    | _ =>
        if mode == .update then
          base.filter fun c =>
            records.any fun rec =>
              (getChangedColumns cols rec).any fun c2 => c2.name = c.name
        else base
  ⟨columns, columns.filter fun c => !c.config.excludeFromUpdate⟩

/-- One JSON record of the encoded batch payload (`outputObjects[i]`); the
`__dbRecordIndex__` correlation tag is kept as a separate field. -/
structure OutputObject where
  fields : List (String × JsValue)
  dbRecordIndex : Nat
deriving DecidableEq, Repr

/-- JS `Map.set` over the column map of `createOutputObjects` (replaces the
value of an existing key in place, otherwise appends). -/
def mapSetCol (l : List ColumnDetail) (c : ColumnDetail) : List ColumnDetail :=
  if l.any (fun x => x.name = c.name) then
    l.map fun x => if x.name = c.name then c else x
  else l ++ [c]

/-- The `outputColumns` map of `createOutputObjects`: the insertable columns,
plus — for an upsert without an explicit `conflictKey`, or for an update —
the primary-key select columns. -/
def outputColumnsList (cols : List (String × ColumnConfig)) (mode : SetMode)
    (options : SetQueryOptions) (records : List DbRecordObj) : List ColumnDetail :=
  let insertable := (getColumns cols mode options records).insertableColumns
  let base := insertable.foldl mapSetCol []
  if (mode == .upsert && options.conflictKey.isNone) || mode == .update then
    (setWorkerPrimaryKeyColumns cols).foldl mapSetCol base
  else base

/-- The write-transform application of `createOutputObjects`:
`(value != null && typeof transformer === 'function') ? transformer(value) :
value`. -/
def applyOutTransform (t : Option Includer) (v : JsValue) : JsValue :=
  match t with
  | some (.fn f) => if v.isNullish then v else f v
  | _ => v

/-- The `transformerMap` of `dbSetWorker` (property name ↦ `config.out` of
the insertable columns). -/
def transformerMapGet (cols : List (String × ColumnConfig)) (mode : SetMode)
    (options : SetQueryOptions) (records : List DbRecordObj) (k : String) :
    Option Includer :=
  jsMapGet
    (((getColumns cols mode options records).insertableColumns).map fun c =>
      (c.name, c.config.out))
    k

/-- The per-column value of one output object:
`rec[recordKey] ?? (knownKeys.has(recordKey) ? null : void 0)`, then the
write transform. -/
def outputValue (cols : List (String × ColumnConfig)) (mode : SetMode)
    (options : SetQueryOptions) (records : List DbRecordObj)
    (rec : DbRecordObj) (c : ColumnDetail) : JsValue :=
  let v0 := jsGetP rec.values c.name
  let value :=
    if v0.isNullish then (if knownKey records c.name then .vNull else .vUndefined) else v0
  applyOutTransform (transformerMapGet cols mode options records c.name) value

/-- The fields of one output object: for every output column, the transformed
value keyed by the DB name; in update mode every primary-key column
additionally carries `original_<dbName>` holding the snapshot value
(`(rec._original || rec)[recordKey]`). -/
def outputObjectFields (cols : List (String × ColumnConfig)) (mode : SetMode)
    (options : SetQueryOptions) (records : List DbRecordObj)
    (rec : DbRecordObj) : List (String × JsValue) :=
  (outputColumnsList cols mode options records).foldl
    (fun acc c =>
      let acc1 := jsSetKey acc c.dbName (outputValue cols mode options records rec c)
      if mode == .update && c.config.primaryKey.isSome then
        jsSetKey acc1 ("original_" ++ c.dbName)
          (jsGetP (rec.original.getD rec.values) c.name)
      else acc1)
    []

/-- The column-definition list of `createOutputObjects` with its identifier
validation: each output column DB name must satisfy
`isValidPostgresIdentifier`, else the worker throws; in update mode a
primary-key column adds an `original_` definition; the `__dbRecordIndex__`
definition is appended last. -/
def buildColDefs (mode : SetMode) : List ColumnDetail → Except String (List String)
  | [] => .ok ["\"__dbRecordIndex__\" int4"]
  | c :: rest =>
      if !isValidPostgresIdentifier c.dbName then
        .error ("Invalid Postgres identifier: " ++ c.dbName)
      else
        (buildColDefs mode rest).map fun defs =>
          (renderIdent c.dbName ++ " " ++ c.config.type) ::
            ((if mode == .update && c.config.primaryKey.isSome then
                ["\"original_" ++ c.dbName ++ "\" " ++ c.config.type]
              else []) ++ defs)

/-- `createOutputObjects` of `dbSetWorker`: validates the output column DB
names while building the column-definition list (throwing on the first
invalid one, before any object is encoded), then encodes each record with
its positional `__dbRecordIndex__`. -/
def createOutputObjects (cols : List (String × ColumnConfig)) (mode : SetMode)
    (options : SetQueryOptions) (records : List DbRecordObj) :
    Except String (List String × List OutputObject) :=
  let outputColumns := outputColumnsList cols mode options records
  (buildColDefs mode outputColumns).map fun defs =>
    (defs,
     (records.enum).map fun p =>
       ⟨outputObjectFields cols mode options records p.2, p.1⟩)

/-- A returned result row of a write statement: the recovered
`__dbRecordIndex__` correlation tag plus the returned columns. -/
structure ResultRow where
  dbRecordIndex : Nat
  fields : List (String × JsValue)
deriving DecidableEq, Repr

/-- The column set `updateDbRecordObjects` expects of every row:
the primary-key columns for `PrimaryKeys` mode, all select columns
otherwise. -/
def setWorkerColumnSet (cols : List (String × ColumnConfig))
    (resultType : SetQueryResultType) : List ColumnDetail :=
  if resultType == .PrimaryKeys then setWorkerPrimaryKeyColumns cols
  else getSelectColumns cols

/-- The read-transform application of `updateDbRecordObjects`:
`(value != null && typeof transformer === 'function') ? transformer(value) :
value` with `transformer = col.config.in`. -/
def applyInTransform (t : Includer) (v : JsValue) : JsValue :=
  match t with
  | .fn f => if v.isNullish then v else f v
  | _ => v

/-- The `columnData` object built for one row by `updateDbRecordObjects`:
`none` models the early `return` taken when a column the set expects is
missing from the row (`!row.hasOwnProperty(dbKey)`) or has `config.in ===
false`. -/
def buildColumnData (columnSet : List ColumnDetail) (row : ResultRow) :
    Option (List (String × JsValue)) :=
  match columnSet with
  | [] => some []
  | col :: rest =>
      if !hasProp row.fields col.dbName then none
      else if col.config.colIn.isFalseFlag then none
      else
        (buildColumnData rest row).map fun cd =>
          (col.name, applyInTransform col.config.colIn (jsGetP row.fields col.dbName)) :: cd

/-- Whether a row triggers the early `return` of `updateDbRecordObjects`:
some expected column is missing from the row or is configured with
`in: false`. -/
def rowAborts (columnSet : List ColumnDetail) (row : ResultRow) : Bool :=
  columnSet.any fun col =>
    !hasProp row.fields col.dbName || col.config.colIn.isFalseFlag

/-- Applying one row to its source instance:
`Object.assign(dbRecordObject, columnData)`; `none` when the row triggers
the early return (in which case nothing at all is assigned). -/
def applyRowToRecord (columnSet : List ColumnDetail) (rec : DbRecordObj)
    (row : ResultRow) : Option DbRecordObj :=
  (buildColumnData columnSet row).map fun cd => { rec with values := objectAssign rec.values cd }

/-- The total good-path version of `applyRowToRecord` (equal to it whenever
the row does not abort). -/
def applyRowFields (columnSet : List ColumnDetail) (rec : DbRecordObj)
    (row : ResultRow) : DbRecordObj :=
  { rec with values := objectAssign rec.values ((buildColumnData columnSet row).getD []) }

/-- The row loop of `updateDbRecordObjects`: each row is applied to
`record[row.__dbRecordIndex__]`; an aborting row exits the whole function,
leaving that row and every later row unapplied.  (A JS out-of-range index
would crash on `Object.assign`; the model reads with a default and writes
with `List.set`, and the theorems assume in-range indices.) -/
def updateRows (columnSet : List ColumnDetail) (records : List DbRecordObj) :
    List ResultRow → List DbRecordObj
  | [] => records
  | row :: rest =>
      match applyRowToRecord columnSet (records.getD row.dbRecordIndex default) row with
      | none => records
      | some rec2 => updateRows columnSet (records.set row.dbRecordIndex rec2) rest

/-- `updateDbRecordObjects` of `dbSetWorker`: iterates the per-statement
results and their rows in order (the early return crosses statement
boundaries, hence the flattening). -/
def updateDbRecordObjects (cols : List (String × ColumnConfig))
    (resultType : SetQueryResultType) (records : List DbRecordObj)
    (results : List (List ResultRow)) : List DbRecordObj :=
  updateRows (setWorkerColumnSet cols resultType) records results.flatten

/- ********************************************************************** -/
/-  set-worker.ts — upsert clause and chunking                            -/
/- ********************************************************************** -/

/-- `sql.join(..., sql.fragment`, `)` over rendered pieces. -/
def joinComma (l : List String) : String := String.intercalate ", " l

/-- The `parenthesizeIfMultipleKeys` helper of `createQueries`: wraps in
parentheses only when the given map has at least two entries. -/
def parenthesizeIfMultipleKeys (mapSize : Nat) (s : String) : String :=
  if mapSize < 2 then s else "(" ++ s ++ ")"

/-- The conflict-key resolution of `createQueries`:
`options.conflictKey ? [options.conflictKey].flat() : primaryKeys`. -/
def resolveConflictKeys (conflictKey : Option (List String))
    (primaryKeys : List String) : List String :=
  conflictKey.getD primaryKeys

/-- The rendered `ON CONFLICT ... DO UPDATE SET ...` fragment of
`createQueries` (empty when the conflict keys resolve to an empty list).
The conflict target is the literal text `(${sql.join(conflictKeys)})` —
parentheses are always present; `parenthesizeIfMultipleKeys` is applied to
the SET column list (sized by `keyMap`) and to the `EXCLUDED` value list
(sized by `updatableKeyMap`). -/
def upsertStatement (conflictKeys : List String) (keyMapSize updMapSize : Nat)
    (updatableDbNames : List String) : String :=
  if conflictKeys.isEmpty then ""
  else
    "ON CONFLICT (" ++ joinComma (conflictKeys.map renderIdent) ++ ") DO UPDATE SET " ++
      parenthesizeIfMultipleKeys keyMapSize (joinComma (updatableDbNames.map renderIdent)) ++
      " = " ++
      parenthesizeIfMultipleKeys updMapSize
        (joinComma (updatableDbNames.map fun k => "EXCLUDED." ++ renderIdent k))

/-- The upsert fragment as `dbSetWorker` builds it for a batch: `keyMap` and
`updatableKeyMap` are JS maps keyed by property name with the DB name as
value. -/
def setWorkerUpsertStatement (cols : List (String × ColumnConfig))
    (options : SetQueryOptions) (records : List DbRecordObj) : String :=
  let gc := getColumns cols .upsert options records
  let keyMap := jsMapOfList (gc.insertableColumns.map fun c => (c.name, c.dbName))
  let updatableKeyMap := jsMapOfList (gc.updatableColumns.map fun c => (c.name, c.dbName))
  let conflictKeys := resolveConflictKeys options.conflictKey (getPrimaryKeys cols)
  upsertStatement conflictKeys keyMap.length updatableKeyMap.length
    (updatableKeyMap.map Prod.snd)

/-- Fuel-indexed worker for `chunkList` (fuel is the list length, so it never
runs out for a positive chunk size). -/
def chunkListGo {α : Type} (c : Nat) : Nat → List α → List (List α)
  | _, [] => []
  | 0, _ :: _ => []
  | fuel + 1, x :: xs => ((x :: xs).take c) :: chunkListGo c fuel ((x :: xs).drop c)

/-- The chunking loop shared by `createQueries`
(`for (let i = 0; i < outputObjects.length; i += insertChunkMax)`) and
`dbDeleteWorker` (same loop with `deleteChunkMax`): successive contiguous
slices of at most `c` elements.  (With `c = 0` the JS loop would never
terminate; callers configure positive chunk limits.) -/
def chunkList {α : Type} (c : Nat) (l : List α) : List (List α) :=
  chunkListGo c l.length l

/-- The per-chunk statement blocks of `createQueries`: each block becomes
exactly one `addQuery` call. -/
def createQueriesChunkBlocks (config : DatabasePoolPlusConfig)
    (outputObjects : List OutputObject) : List (List OutputObject) :=
  chunkList config.insertChunkMax outputObjects

/- ********************************************************************** -/
/-  delete-worker.ts                                                      -/
/- ********************************************************************** -/

/-- `DeleteQueryOptions` (statement-sequencing options omitted as for the
set worker).  A `whereClause` of `some s` models any supplied fragment —
fragments are objects and hence always truthy in the TS checks; `some ""`
is the explicitly empty fragment `sql\x60\x60`. -/
structure DeleteQueryOptions where
  tableName : Option String := none
  whereClause : Option String := none

/-- The rendered per-record predicate of the delete worker:
`(${r.getWhereClause(true)!})`.  A record type without primary keys makes
`getWhereClause` return `undefined`, which the non-null assertion feeds into
`sql.fragment` — a crash, modelled as an error. -/
def deleteRecordPredicate (cols : List (String × ColumnConfig)) (rec : DbRecordObj) :
    Except String String :=
  match getWhereClauseConds cols rec with
  | .error e => .error e
  | .ok none => .error "TypeError: getWhereClause returned undefined (record has no primary keys)"
  | .ok (some conds) => .ok ("(" ++ String.intercalate " AND " conds ++ ")")

/-- `dbDeleteWorker` from src/query/delete-worker.ts.  `input = none` models
being called with a bare record type (constructor), `input = some records`
with an instance array.  Returns the rendered DELETE statements.  Error
messages are abbreviated forms of the thrown messages. -/
def dbDeleteWorker (config : DatabasePoolPlusConfig) (rcfg : RecordConfigW)
    (input : Option (List DbRecordObj)) (options : DeleteQueryOptions) :
    Except String (List String) :=
  if input.isSome && input.getD [] == [] then
    .error "No records provided for DB Delete! Check the length of your array before passing to DB."
  else if input.isNone && options.whereClause.isNone then
    .error "Cannot delete from table without a where clause."
  else
    match options.tableName.orElse (fun _ => rcfg.table) with
    | none => .error "Cannot perform insert/upsert. No table specified!"
    | some tableName =>
        match options.whereClause with
        | none =>
            exceptMapList
              (fun block =>
                (exceptMapList (deleteRecordPredicate rcfg.columns) block).map fun parts =>
                  "DELETE FROM " ++ renderTableIdent tableName ++ " WHERE " ++
                    String.intercalate " OR " parts ++ ";")
              (chunkList config.deleteChunkMax (input.getD []))
        | some wc =>
            .ok ["DELETE FROM " ++ renderTableIdent tableName ++ " WHERE " ++ wc ++ ";"]

/- ********************************************************************** -/
/-  get-worker.ts                                                         -/
/- ********************************************************************** -/

/-- The select-column filter of `dbGetWorker`: `'all'` keeps every select
column, an explicit list filters by property name, the default keeps the
`autoLoad` columns. -/
def getWorkerColumns (cols : List (String × ColumnConfig))
    (optColumns : Option ColumnsOpt) : List ColumnDetail :=
  (getSelectColumns cols).filter fun c =>
    match optColumns with
    | some .all => true
    | some (.list l) => l.contains c.name
    | none => c.config.autoLoad

/-- `fixupResult` of `dbGetWorker`: remaps driver column names through
`keyMap`, applies `transformerMap` entries that are functions directly to
the raw value, and otherwise stores `value ?? undefined`. -/
def fixupResult (columns : List ColumnDetail) (obj : List (String × JsValue)) :
    List (String × JsValue) :=
  obj.foldl
    (fun acc kv =>
      let maybeTransformer := jsMapGet (columns.map fun c => (c.dbName, c.config.colIn)) kv.1
      let resKey := (jsMapGet (columns.map fun c => (c.dbName, c.name)) kv.1).getD kv.1
      let newVal :=
        match maybeTransformer with
        | some (.fn f) => f kv.2
        | _ => if kv.2.isNullish then .vUndefined else kv.2
      jsSetKey acc resKey newVal)
    []

/- ********************************************************************** -/
/-  db-record.ts — the `record` class decorator (schema registration)     -/
/- ********************************************************************** -/

/-- The per-column name defaulting performed by the `record` decorator:
`if (!config.name) config.name = convertCases ? camelToSnake(key) : key`.
The case converter is an external collaborator and is passed in as
`convertCase`. -/
def nameDefault (convertCase : String → String) (convertCases : Bool)
    (key : String) (c : ColumnConfig) : ColumnConfig :=
  { c with name := some (c.name.getD (if convertCases then convertCase key else key)) }

/-- `DbRecord.record` (schema registration): defaults each own column DB
name, then walks the ancestor chain adding inherited columns whose key is
not yet present.  It performs no identifier validation and cannot fail. -/
def recordRegister (convertCase : String → String) (rcfg : RecordConfigW)
    (ownColumns : List (String × ColumnConfig))
    (ancestorColumns : List (List (String × ColumnConfig))) : RecordConfigW :=
  let own := ownColumns.map fun p => (p.1, nameDefault convertCase rcfg.convertCases p.1 p.2)
  let merged := ancestorColumns.foldl
    (fun acc anc => acc ++ anc.filter fun p => !acc.any fun q => q.1 = p.1)
    own
  { rcfg with columns := merged }

/- ********************************************************************** -/
/-  Helper lemmas                                                         -/
/- ********************************************************************** -/

theorem strData_append (a b : String) : (a ++ b).data = a.data ++ b.data := rfl

theorem isPrefixOf_append_self (l t : List Char) : l.isPrefixOf (l ++ t) = true := by
  induction l with
  | nil => cases t <;> rfl
  | cons c cs ih => simp [List.isPrefixOf, ih]

/-- Whether an optional `Includer` is a transform function
(`typeof maybeTransformer === 'function'`). -/
def optIncluderIsFn : Option Includer → Bool
  | some (.fn _) => true
  | _ => false

theorem isError_map {ε α β : Type} (g : α → β) (e : Except ε α) :
    isError (e.map g) = isError e := by
  cases e <;> rfl

theorem exceptMapList_ok_length {ε α β : Type} (f : α → Except ε β) :
    ∀ {l : List α} {ys : List β}, exceptMapList f l = .ok ys → ys.length = l.length := by
  intro l
  induction l with
  | nil => intro ys h; cases h; rfl
  | cons x xs ih =>
      intro ys h
      unfold exceptMapList at h
      cases hfx : f x with
      | error e => rw [hfx] at h; cases h
      | ok y =>
          rw [hfx] at h
          cases hrest : exceptMapList f xs with
          | error e => rw [hrest] at h; cases h
          | ok zs =>
              rw [hrest] at h
              cases h
              simpa using ih hrest

theorem exceptMapList_isError_of_mem {ε α β : Type} (f : α → Except ε β)
    {l : List α} {x : α} (hx : x ∈ l) (he : isError (f x) = true) :
    isError (exceptMapList f l) = true := by
  induction l with
  | nil => cases hx
  | cons a as ih =>
      unfold exceptMapList
      cases hfa : f a with
      | error e => rfl
      | ok y =>
          rcases List.mem_cons.mp hx with rfl | hxas
          · rw [hfa] at he; cases he
          · rw [isError_map]; exact ih hxas

theorem chunkListGo_spec {α : Type} (c : Nat) (hc : 0 < c) :
    ∀ (fuel : Nat) (l : List α), l.length ≤ fuel →
      (chunkListGo c fuel l).flatten = l ∧
      (chunkListGo c fuel l).length = (l.length + c - 1) / c ∧
      ∀ b ∈ chunkListGo c fuel l, b.length ≤ c := by
  intro fuel
  induction fuel with
  | zero =>
      intro l hl
      have : l = [] := List.length_eq_zero.mp (Nat.le_zero.mp hl)
      subst this
      refine ⟨rfl, ?_, by intro b hb; cases hb⟩
      simp [chunkListGo, Nat.div_eq_of_lt (by omega : c - 1 < c)]
  | succ fuel ih =>
      intro l hl
      match l with
      | [] =>
          refine ⟨rfl, ?_, by intro b hb; cases hb⟩
          simp [chunkListGo, Nat.div_eq_of_lt (by omega : c - 1 < c)]
      | x :: xs =>
          have hdrop : ((x :: xs).drop c).length ≤ fuel := by
            simp only [List.length_drop]
            have : (x :: xs).length ≤ fuel + 1 := hl
            omega
          obtain ⟨hflat, hlen, hmem⟩ := ih ((x :: xs).drop c) hdrop
          have hgo : chunkListGo c (fuel + 1) (x :: xs) =
              ((x :: xs).take c) :: chunkListGo c fuel ((x :: xs).drop c) := rfl
          refine ⟨?_, ?_, ?_⟩
          · rw [hgo]; simp only [List.flatten_cons, hflat, List.take_append_drop]
          · rw [hgo]
            simp only [List.length_cons, hlen, List.length_drop]
            generalize hne : xs.length + 1 = n
            have hn1 : 1 ≤ n := by omega
            by_cases hcn : c ≤ n
            · have h1 : n - c + c - 1 = n - 1 := by omega
              have h2 : n + c - 1 = (n - 1) + c := by omega
              rw [h1, h2, Nat.add_div_right _ hc]
            · have h1 : n - c + c - 1 = c - 1 := by omega
              rw [h1, Nat.div_eq_of_lt (by omega : c - 1 < c)]
              have hlo : 1 ≤ (n + c - 1) / c :=
                (Nat.le_div_iff_mul_le hc).mpr (by omega)
              have hhi : (n + c - 1) / c < 2 :=
                (Nat.div_lt_iff_lt_mul hc).mpr (by omega)
              omega
          · rw [hgo]
            intro b hb
            rcases List.mem_cons.mp hb with rfl | hbs
            · simp
            · exact hmem b hbs

end SlonikPlus

open SlonikPlus

/- ********************************************************************** -/
/-  Concrete fixtures used by witnesses and counterexamples               -/
/- ********************************************************************** -/

/-- An `int4` primary-key column named `id`. -/
def exIdCol : ColumnConfig := { name := some "id", type := "int4", primaryKey := some 1 }

/-- A plain `int4` column named `a`. -/
def exACol : ColumnConfig := { name := some "a", type := "int4" }

/-- A plain `int4` column named `b`. -/
def exBCol : ColumnConfig := { name := some "b", type := "int4" }

/-- A three-column schema: primary key `id`, data columns `a` and `b`. -/
def exCols : List (String × ColumnConfig) := [("id", exIdCol), ("a", exACol), ("b", exBCol)]

/-- A registered config for table `t` over `exCols`. -/
def exRecordConfig : RecordConfigW := { table := some "t", columns := exCols }

/-- A pool configuration with chunk limits 2 / 2. -/
def exPoolConfig : DatabasePoolPlusConfig := { deleteChunkMax := 2, insertChunkMax := 2 }

/- ********************************************************************** -/
/-  C9                                                                    -/
/- ********************************************************************** -/

/-- C9: at the top of `dbSetWorker`, before any statement is built, a unset
or explicit-`None` result type is promoted to `Record` when `syncRecords`
is set, while an explicit `PrimaryKeys` (or `Record`) survives; without
`syncRecords` the result type is left exactly as supplied (defaulting to
`None`). -/
theorem c9_sync_records_promotes_result_type :
    resolveResultType true none = SetQueryResultType.Record ∧
    resolveResultType true (some .None) = SetQueryResultType.Record ∧
    resolveResultType true (some .PrimaryKeys) = SetQueryResultType.PrimaryKeys ∧
    resolveResultType true (some .Record) = SetQueryResultType.Record ∧
    (∀ rt : SetQueryResultType, resolveResultType false (some rt) = rt) ∧
    resolveResultType false none = SetQueryResultType.None := by
  refine ⟨rfl, rfl, rfl, rfl, ?_, rfl⟩
  intro rt
  cases rt <;> rfl

/- ********************************************************************** -/
/-  C6                                                                    -/
/- ********************************************************************** -/

/-- C6: for a positive chunk limit `c`, the write synthesizer's chunking
loop produces exactly `⌈n / c⌉` blocks of at most `c` contiguous elements
whose concatenation is the input, and the same law holds for the delete
worker's instance chunking, whose statement count equals
`⌈records.length / deleteChunkMax⌉` whenever it succeeds. -/
theorem c6_chunking_law (config : DatabasePoolPlusConfig)
    (outputObjects : List OutputObject) (records : List DbRecordObj)
    (rcfg : RecordConfigW) (options : DeleteQueryOptions)
    (hins : 0 < config.insertChunkMax) (hdel : 0 < config.deleteChunkMax) :
    ((createQueriesChunkBlocks config outputObjects).length =
        (outputObjects.length + config.insertChunkMax - 1) / config.insertChunkMax ∧
      (createQueriesChunkBlocks config outputObjects).flatten = outputObjects ∧
      ∀ b ∈ createQueriesChunkBlocks config outputObjects,
        b.length ≤ config.insertChunkMax) ∧
    ((chunkList config.deleteChunkMax records).length =
        (records.length + config.deleteChunkMax - 1) / config.deleteChunkMax ∧
      (chunkList config.deleteChunkMax records).flatten = records ∧
      ∀ b ∈ chunkList config.deleteChunkMax records,
        b.length ≤ config.deleteChunkMax) ∧
    ∀ qs, options.whereClause = none →
      dbDeleteWorker config rcfg (some records) options = .ok qs →
      qs.length = (records.length + config.deleteChunkMax - 1) / config.deleteChunkMax := by
  obtain ⟨f1, l1, m1⟩ := chunkListGo_spec _ hins outputObjects.length outputObjects le_rfl
  obtain ⟨f2, l2, m2⟩ := chunkListGo_spec _ hdel records.length records le_rfl
  refine ⟨⟨l1, f1, m1⟩, ⟨l2, f2, m2⟩, ?_⟩
  intro qs hwc h
  unfold dbDeleteWorker at h
  rw [hwc] at h
  split at h
  · cases h
  · split at h
    · cases h
    · split at h
      · cases h
      · have hlen := exceptMapList_ok_length _ h
        rw [hlen]
        exact l2

/-- Witness for C6: with chunk limits 2, a batch of three output objects
yields two blocks and a delete of three records yields two statements. -/
theorem c6_chunking_law_witness :
    (0 < exPoolConfig.insertChunkMax ∧ 0 < exPoolConfig.deleteChunkMax) ∧
    (createQueriesChunkBlocks exPoolConfig
        [⟨[], 0⟩, ⟨[], 1⟩, ⟨[], 2⟩]).length = 2 ∧
    (∀ qs, (none : Option String) = none →
      dbDeleteWorker exPoolConfig exRecordConfig
          (some [⟨[("id", .vInt 1)], none⟩, ⟨[("id", .vInt 2)], none⟩,
            ⟨[("id", .vInt 3)], none⟩]) {} = .ok qs →
      qs.length = 2) :=
  ⟨⟨by decide, by decide⟩,
    (c6_chunking_law exPoolConfig [⟨[], 0⟩, ⟨[], 1⟩, ⟨[], 2⟩]
      [⟨[("id", .vInt 1)], none⟩, ⟨[("id", .vInt 2)], none⟩, ⟨[("id", .vInt 3)], none⟩]
      exRecordConfig {} (by decide) (by decide)).1.1.trans (by decide),
    (c6_chunking_law exPoolConfig [⟨[], 0⟩, ⟨[], 1⟩, ⟨[], 2⟩]
      [⟨[("id", .vInt 1)], none⟩, ⟨[("id", .vInt 2)], none⟩, ⟨[("id", .vInt 3)], none⟩]
      exRecordConfig {} (by decide) (by decide)).2.2⟩

/- ********************************************************************** -/
/-  C8                                                                    -/
/- ********************************************************************** -/

/-- C8: the delete worker rejects an empty instance array and a bare type
without a predicate synchronously, as the claim says; but an explicitly
empty predicate produces the statement `DELETE FROM "t" WHERE ;`, whose
WHERE clause has no expression — a PostgreSQL syntax error — so it cannot
"succeed and delete all rows" as the claim (and the worker's own error
message, which tells callers to pass an empty fragment for a full-table
delete) promises. -/
theorem c8_delete_validation_and_empty_predicate :
    dbDeleteWorker exPoolConfig exRecordConfig (some []) {} =
      .error "No records provided for DB Delete! Check the length of your array before passing to DB." ∧
    dbDeleteWorker exPoolConfig exRecordConfig none {} =
      .error "Cannot delete from table without a where clause." ∧
    dbDeleteWorker exPoolConfig exRecordConfig none { whereClause := some "" } =
      .ok ["DELETE FROM \"t\" WHERE ;"] := by
  refine ⟨by decide, by decide, by decide⟩

/- ********************************************************************** -/
/-  C4                                                                    -/
/- ********************************************************************** -/

/-- C4 counterexample: for a record type declaring exactly one primary key
`id` and an upsert without `conflictKey`, the generated fragment is
`ON CONFLICT ("id") DO UPDATE SET "id" = EXCLUDED."id"` — the conflict
target is a parenthesized list even for the single key (only the SET clause
is bare), contradicting the claim that the target is a bare column
reference. -/
theorem c4_single_key_conflict_target_parenthesized_cx :
    setWorkerUpsertStatement [("id", exIdCol)] {} [⟨[("id", .vInt 1)], none⟩] =
      "ON CONFLICT (\"id\") DO UPDATE SET \"id\" = EXCLUDED.\"id\"" ∧
    (("ON CONFLICT (".data).isPrefixOf
      (setWorkerUpsertStatement [("id", exIdCol)] {} [⟨[("id", .vInt 1)], none⟩]).data) = true ∧
    (("ON CONFLICT \"id\"".data).isPrefixOf
      (setWorkerUpsertStatement [("id", exIdCol)] {} [⟨[("id", .vInt 1)], none⟩]).data) = false := by
  refine ⟨by decide, by decide, by decide⟩

/-- C4 amended: an upsert with no `conflictKey` option targets the full
declared primary-key set, and the generated ON CONFLICT target is always a
parenthesized identifier list — also for a single key; what
`parenthesizeIfMultipleKeys` leaves bare for a size-one key map is the
DO UPDATE SET column list and its EXCLUDED counterpart. -/
theorem c4_conflict_target_amended (cols : List (String × ColumnConfig))
    (cks : List String) (kms ums : Nat) (un : List String) (s : String)
    (h : cks ≠ []) :
    resolveConflictKeys none (getPrimaryKeys cols) = getPrimaryKeys cols ∧
    upsertStatement cks kms ums un =
      "ON CONFLICT (" ++ joinComma (cks.map renderIdent) ++ ") DO UPDATE SET " ++
        (parenthesizeIfMultipleKeys kms (joinComma (un.map renderIdent)) ++
          (" = " ++
            parenthesizeIfMultipleKeys ums
              (joinComma (un.map fun k => "EXCLUDED." ++ renderIdent k)))) ∧
    (("ON CONFLICT (".data).isPrefixOf (upsertStatement cks kms ums un).data) = true ∧
    parenthesizeIfMultipleKeys 1 s = s ∧
    (2 ≤ kms → parenthesizeIfMultipleKeys kms s = "(" ++ s ++ ")") := by
  have hne : cks.isEmpty = false := by
    cases cks with
    | nil => exact absurd rfl h
    | cons a as => rfl
  have heq : upsertStatement cks kms ums un =
      "ON CONFLICT (" ++ joinComma (cks.map renderIdent) ++ ") DO UPDATE SET " ++
        (parenthesizeIfMultipleKeys kms (joinComma (un.map renderIdent)) ++
          (" = " ++
            parenthesizeIfMultipleKeys ums
              (joinComma (un.map fun k => "EXCLUDED." ++ renderIdent k)))) := by
    unfold upsertStatement
    rw [hne]
    simp [String.append_assoc]
  refine ⟨rfl, heq, ?_, rfl, ?_⟩
  · rw [heq]
    have : ("ON CONFLICT (" ++ joinComma (cks.map renderIdent) ++ ") DO UPDATE SET " ++
        (parenthesizeIfMultipleKeys kms (joinComma (un.map renderIdent)) ++
          (" = " ++
            parenthesizeIfMultipleKeys ums
              (joinComma (un.map fun k => "EXCLUDED." ++ renderIdent k))))).data =
        ("ON CONFLICT (").data ++
          ((joinComma (cks.map renderIdent) ++ ") DO UPDATE SET " ++
            (parenthesizeIfMultipleKeys kms (joinComma (un.map renderIdent)) ++
              (" = " ++
                parenthesizeIfMultipleKeys ums
                  (joinComma (un.map fun k => "EXCLUDED." ++ renderIdent k))))).data) := by
      simp [strData_append, String.append_assoc]
    rw [this]
    exact isPrefixOf_append_self _ _
  · intro hk
    unfold parenthesizeIfMultipleKeys
    rw [if_neg (by omega)]

/-- Witness for C4 amended at the single-primary-key schema. -/
theorem c4_conflict_target_amended_witness :
    (["id"] ≠ ([] : List String)) ∧
    resolveConflictKeys none (getPrimaryKeys [("id", exIdCol)]) =
      getPrimaryKeys [("id", exIdCol)] ∧
    (("ON CONFLICT (".data).isPrefixOf (upsertStatement ["id"] 1 1 ["id"]).data) = true :=
  ⟨by decide,
    (c4_conflict_target_amended [("id", exIdCol)] ["id"] 1 1 ["id"] "x" (by decide)).1,
    (c4_conflict_target_amended [("id", exIdCol)] ["id"] 1 1 ["id"] "x" (by decide)).2.2.1⟩

/- ********************************************************************** -/
/-  C5                                                                    -/
/- ********************************************************************** -/

/-- A read transform that tells `null` and `undefined` apart. -/
def nullProbe : JsValue → JsValue
  | .vUndefined => .vStr "u"
  | .vNull => .vStr "n"
  | v => v

/-- A text column whose read setting is the `nullProbe` transform. -/
def exProbeCol : ColumnConfig := { name := some "a", type := "text", colIn := .fn nullProbe }

/-- A one-column schema carrying `exProbeCol`. -/
def exProbeCols : List (String × ColumnConfig) := [("a", exProbeCol)]

/-- C5 counterexample: hydrating a row whose column `a` is SQL null through
a read-transform delivers `null` (the transform returns `"n"`), not
`undefined` (which would give `"u"`) — the `?? undefined` coercion applies
only to columns without a function transform. -/
theorem c5_null_delivered_to_transform_cx :
    fixupResult (getWorkerColumns exProbeCols none) [("a", .vNull)] = [("a", .vStr "n")] ∧
    nullProbe .vUndefined = .vStr "u" ∧
    fixupResult (getWorkerColumns exProbeCols none) [("a", .vNull)] ≠
      [("a", nullProbe .vUndefined)] := by
  refine ⟨rfl, rfl, by decide⟩

/-- C5 amended: `fixupResult` hands the raw driver value — including SQL
null — unchanged to a column's read-transform; only a column without a
function transform has null (or undefined) stored as `undefined` on the new
instance. -/
theorem c5_fixup_transform_semantics (columns : List ColumnDetail) (k : String)
    (v : JsValue) (f : JsValue → JsValue)
    (hf : jsMapGet (columns.map fun c => (c.dbName, c.config.colIn)) k = some (.fn f)) :
    fixupResult columns [(k, v)] =
      [((jsMapGet (columns.map fun c => (c.dbName, c.name)) k).getD k, f v)] ∧
    ∀ (k2 : String) (v2 : JsValue),
      optIncluderIsFn (jsMapGet (columns.map fun c => (c.dbName, c.config.colIn)) k2) = false →
      v2.isNullish = true →
      fixupResult columns [(k2, v2)] =
        [((jsMapGet (columns.map fun c => (c.dbName, c.name)) k2).getD k2, .vUndefined)] := by
  constructor
  · show jsSetKey [] _ _ = _
    rw [hf]
    rfl
  · intro k2 v2 hnf hnull
    show jsSetKey [] _ _ = _
    cases ht : jsMapGet (columns.map fun c => (c.dbName, c.config.colIn)) k2 with
    | none => simp [jsSetKey, hnull]
    | some inc =>
        cases inc with
        | flag b => simp [jsSetKey, hnull]
        | fn g =>
            rw [ht] at hnf
            simp [optIncluderIsFn] at hnf

/-- Witness for C5 amended: the probe column receives `null` unchanged, and
a column without a transform stores `null` as `undefined`. -/
theorem c5_fixup_transform_semantics_witness :
    jsMapGet ((getWorkerColumns exProbeCols none).map fun c => (c.dbName, c.config.colIn)) "a" =
      some (.fn nullProbe) ∧
    fixupResult (getWorkerColumns exProbeCols none) [("a", .vNull)] =
      [((jsMapGet ((getWorkerColumns exProbeCols none).map fun c => (c.dbName, c.name)) "a").getD "a",
        nullProbe .vNull)] ∧
    fixupResult (getWorkerColumns exProbeCols none) [("z", .vNull)] =
      [((jsMapGet ((getWorkerColumns exProbeCols none).map fun c => (c.dbName, c.name)) "z").getD "z",
        .vUndefined)] :=
  ⟨rfl,
    (c5_fixup_transform_semantics (getWorkerColumns exProbeCols none) "a" .vNull nullProbe rfl).1,
    (c5_fixup_transform_semantics (getWorkerColumns exProbeCols none) "a" .vNull nullProbe rfl).2
      "z" .vNull rfl rfl⟩

/- ********************************************************************** -/
/-  C7                                                                    -/
/- ********************************************************************** -/

/-- Lemma: the column-definition builder of `createOutputObjects` succeeds
exactly when every output column DB name is a valid unquoted PostgreSQL
identifier. -/
theorem buildColDefs_ok_iff (mode : SetMode) (l : List ColumnDetail) :
    isError (buildColDefs mode l) = false ↔
      ∀ c ∈ l, isValidPostgresIdentifier c.dbName = true := by
  induction l with
  | nil => simp [buildColDefs, isError]
  | cons c rest ih =>
      unfold buildColDefs
      by_cases hv : isValidPostgresIdentifier c.dbName = true
      · rw [if_neg (by simp [hv])]
        rw [isError_map]
        constructor
        · intro h d hd
          rcases List.mem_cons.mp hd with rfl | hdr
          · exact hv
          · exact (ih.mp h) d hdr
        · intro h
          exact ih.mpr fun d hd => h d (List.mem_cons_of_mem _ hd)
      · rw [if_pos (by simp [Bool.not_eq_true] at hv ⊢; exact hv)]
        simp only [isError]
        constructor
        · intro h; cases h
        · intro h
          exact absurd (h c (List.mem_cons_self c rest)) hv

/-- Lemma: the lineage-merging fold of the `record` decorator only appends,
so own columns survive registration. -/
theorem recordRegister_preserves_own {p : String × ColumnConfig}
    (ancestorColumns : List (List (String × ColumnConfig))) :
    ∀ acc : List (String × ColumnConfig), p ∈ acc →
      p ∈ ancestorColumns.foldl
        (fun acc anc => acc ++ anc.filter fun q => !acc.any fun r => r.1 = q.1) acc := by
  induction ancestorColumns with
  | nil => intro acc h; exact h
  | cons anc rest ih =>
      intro acc h
      exact ih _ (List.mem_append_left _ h)

/-- A column whose configured DB name contains a space (invalid unquoted
identifier). -/
def exBadCol : ColumnConfig := { name := some "bad name", type := "int4" }

/-- C7 counterexample: registering a type whose column DB name is `bad name`
succeeds — the `record` decorator performs no identifier validation and the
invalid name lands unchanged in the registered config — and the
`InvalidIdentifier` failure is only raised later, when `createOutputObjects`
builds the first write statement for that type. -/
theorem c7_registration_accepts_invalid_identifier_cx :
    ((recordRegister (fun s => s) {} [("bad", exBadCol)] []).columns.any
        fun p => p.2.name == some "bad name") = true ∧
    isValidPostgresIdentifier "bad name" = false ∧
    isError (createOutputObjects
        (recordRegister (fun s => s) {} [("bad", exBadCol)] []).columns .insert {}
        [⟨[("bad", .vInt 1)], none⟩]) = true := by
  refine ⟨by decide, by decide, by decide⟩

/-- C7 amended: identifier validation happens at write-statement synthesis,
not at registration: `createOutputObjects` succeeds exactly when every
output column DB name passes `isValidPostgresIdentifier` (throwing
`Invalid Postgres identifier` otherwise, before any statement is sent),
while `register` (the `record` decorator) accepts every column unchanged
apart from name defaulting. -/
theorem c7_validation_at_query_build (cols : List (String × ColumnConfig))
    (mode : SetMode) (options : SetQueryOptions) (records : List DbRecordObj)
    (convertCase : String → String) (rcfg : RecordConfigW)
    (own : List (String × ColumnConfig))
    (ancestorColumns : List (List (String × ColumnConfig)))
    (k : String) (c : ColumnConfig) (hmem : (k, c) ∈ own) :
    (isError (createOutputObjects cols mode options records) = false ↔
      ∀ d ∈ outputColumnsList cols mode options records,
        isValidPostgresIdentifier d.dbName = true) ∧
    (k, nameDefault convertCase rcfg.convertCases k c) ∈
      (recordRegister convertCase rcfg own ancestorColumns).columns := by
  constructor
  · show isError ((buildColDefs mode (outputColumnsList cols mode options records)).map _) = false ↔ _
    rw [isError_map]
    exact buildColDefs_ok_iff mode _
  · exact recordRegister_preserves_own ancestorColumns _
      (List.mem_map_of_mem (fun p => (p.1, nameDefault convertCase rcfg.convertCases p.1 p.2)) hmem)

/-- Witness for C7 amended at the example schema. -/
theorem c7_validation_at_query_build_witness :
    (("id", exIdCol) ∈ [("id", exIdCol)]) ∧
    (isError (createOutputObjects exCols .insert {} [⟨[("id", .vInt 1)], none⟩]) = false ↔
      ∀ d ∈ outputColumnsList exCols .insert {} [⟨[("id", .vInt 1)], none⟩],
        isValidPostgresIdentifier d.dbName = true) ∧
    ("id", nameDefault (fun s => s) true "id" exIdCol) ∈
      (recordRegister (fun s => s) { convertCases := true } [("id", exIdCol)] []).columns :=
  ⟨List.mem_singleton.mpr rfl,
    (c7_validation_at_query_build exCols .insert {} [⟨[("id", .vInt 1)], none⟩]
      (fun s => s) { convertCases := true } [("id", exIdCol)] [] "id" exIdCol
      (List.mem_singleton.mpr rfl)).1,
    (c7_validation_at_query_build exCols .insert {} [⟨[("id", .vInt 1)], none⟩]
      (fun s => s) { convertCases := true } [("id", exIdCol)] [] "id" exIdCol
      (List.mem_singleton.mpr rfl)).2⟩

/- ********************************************************************** -/
/-  C10                                                                   -/
/- ********************************************************************** -/

/-- C10: `getWhereClause` rejects every falsy primary-key value — `0`, the
empty string, `false`, `null` and `undefined` alike — so any instance whose
declared primary-key column holds such a value makes the instance-based
delete fail (the record cannot be deleted by instance, even though `0` or
`''` may be a legitimate key). -/
theorem c10_falsy_primary_key_rejected (cols : List (String × ColumnConfig))
    (rec : DbRecordObj) (k : String) (c : ColumnDetail)
    (hk : k ∈ getPrimaryKeys cols)
    (hc : (getInsertColumns cols).find? (fun col => col.dbName = k) = some c)
    (hfalsy : falsy (jsGetP rec.values c.name) = true) :
    isError (getWhereClauseConds cols rec) = true ∧
    (∀ (config : DatabasePoolPlusConfig) (rcfg : RecordConfigW)
        (options : DeleteQueryOptions),
      0 < config.deleteChunkMax → rcfg.columns = cols → options.whereClause = none →
      isError (dbDeleteWorker config rcfg (some [rec]) options) = true) ∧
    falsy (.vInt 0) = true ∧ falsy (.vStr "") = true ∧ falsy (.vBool false) = true ∧
    falsy .vNull = true ∧ falsy .vUndefined = true := by
  have hcond : whereCondition cols rec k = .error ("Cannot find value for primary key: " ++ k) := by
    unfold whereCondition
    rw [hc]
    simp [hfalsy]
  have hwc : isError (getWhereClauseConds cols rec) = true := by
    unfold getWhereClauseConds
    have hne : (getPrimaryKeys cols).isEmpty = false := by
      cases hpk : getPrimaryKeys cols with
      | nil => rw [hpk] at hk; cases hk
      | cons a as => rfl
    rw [if_neg (by simp [hne])]
    rw [isError_map]
    exact exceptMapList_isError_of_mem _ hk (by rw [hcond]; rfl)
  refine ⟨hwc, ?_, rfl, rfl, rfl, rfl, rfl⟩
  intro config rcfg options hchunk hcols hwhere
  unfold dbDeleteWorker
  simp only [hwhere]
  split
  · rfl
  · split
    · rfl
    · split
      · rfl
      · have hpred : isError (deleteRecordPredicate rcfg.columns rec) = true := by
          unfold deleteRecordPredicate
          rw [hcols]
          rcases he : getWhereClauseConds cols rec with e | v
          · rfl
          · rw [he] at hwc; cases hwc
        have ht : List.take config.deleteChunkMax [rec] = [rec] :=
          List.take_of_length_le (by simpa using hchunk)
        have hd : List.drop config.deleteChunkMax [rec] = [] :=
          List.drop_eq_nil_of_le (by simpa using hchunk)
        have hchunkeq : chunkList config.deleteChunkMax [rec] = [[rec]] := by
          show List.take config.deleteChunkMax [rec] ::
              chunkListGo config.deleteChunkMax 0 (List.drop config.deleteChunkMax [rec]) =
            [[rec]]
          rw [ht, hd]
          rfl
        simp only [Option.getD_some]
        rw [hchunkeq]
        refine exceptMapList_isError_of_mem _ (List.mem_singleton.mpr rfl) ?_
        rw [isError_map]
        exact exceptMapList_isError_of_mem _ (List.mem_singleton.mpr rfl) hpred

/-- Witness for C10: an instance whose `id` primary key is `0` cannot be
deleted by instance. -/
theorem c10_falsy_primary_key_rejected_witness :
    ("id" ∈ getPrimaryKeys exCols) ∧
    ((getInsertColumns exCols).find? (fun col => col.dbName = "id") =
      some ⟨"id", "id", exIdCol⟩) ∧
    (falsy (jsGetP [("id", .vInt 0), ("a", .vInt 2)] "id") = true) ∧
    isError (getWhereClauseConds exCols ⟨[("id", .vInt 0), ("a", .vInt 2)], none⟩) = true ∧
    isError (dbDeleteWorker exPoolConfig exRecordConfig
      (some [⟨[("id", .vInt 0), ("a", .vInt 2)], none⟩]) {}) = true :=
  ⟨by decide, rfl, rfl,
    (c10_falsy_primary_key_rejected exCols ⟨[("id", .vInt 0), ("a", .vInt 2)], none⟩
      "id" ⟨"id", "id", exIdCol⟩ (by decide) rfl rfl).1,
    (c10_falsy_primary_key_rejected exCols ⟨[("id", .vInt 0), ("a", .vInt 2)], none⟩
      "id" ⟨"id", "id", exIdCol⟩ (by decide) rfl rfl).2.1
      exPoolConfig exRecordConfig {} (by decide) rfl rfl⟩

/- ********************************************************************** -/
/-  C2                                                                    -/
/- ********************************************************************** -/

/-- Lemma: the per-row column-data build fails exactly when the row triggers
the early return (a column the set expects is missing or read-disabled). -/
theorem buildColumnData_none_iff (columnSet : List ColumnDetail) (row : ResultRow) :
    (buildColumnData columnSet row = none) ↔ rowAborts columnSet row = true := by
  induction columnSet with
  | nil => simp [buildColumnData, rowAborts]
  | cons c rest ih =>
      simp only [buildColumnData, rowAborts, List.any_cons]
      cases hh : hasProp row.fields c.dbName with
      | false => simp
      | true =>
          cases hf : c.config.colIn.isFalseFlag with
          | false =>
              simp only [hh, hf, Bool.not_true, Bool.false_or, if_neg, Bool.false_eq_true,
                not_false_eq_true, if_false]
              rw [Option.map_eq_none']
              simpa [rowAborts] using ih
          | true => simp

/-- A one-column schema used by the C2 scenario. -/
def exC2Cols : List (String × ColumnConfig) := [("a", exACol)]

/-- C2 counterexample: in a two-row result whose first row is missing the
expected column `a` and whose second row carries `a = 11` for record 1, the
code leaves *both* records untouched (the early `return` exits the whole
reconciliation, not just the bad row), although the same good row alone does
update record 1 — contradicting "rows that do contain every expected column
… are still reconciled normally". -/
theorem c2_bad_row_aborts_later_rows_cx :
    updateDbRecordObjects exC2Cols .Record
        [⟨[("a", .vInt 0)], none⟩, ⟨[("a", .vInt 1)], none⟩]
        [[⟨0, [("x", .vInt 9)]⟩, ⟨1, [("a", .vInt 11)]⟩]] =
      [⟨[("a", .vInt 0)], none⟩, ⟨[("a", .vInt 1)], none⟩] ∧
    updateDbRecordObjects exC2Cols .Record
        [⟨[("a", .vInt 0)], none⟩, ⟨[("a", .vInt 1)], none⟩]
        [[⟨1, [("a", .vInt 11)]⟩]] =
      [⟨[("a", .vInt 0)], none⟩, ⟨[("a", .vInt 11)], none⟩] ∧
    ([⟨[("a", .vInt 0)], none⟩, ⟨[("a", .vInt 1)], none⟩] :
        List DbRecordObj) ≠
      [⟨[("a", .vInt 0)], none⟩, ⟨[("a", .vInt 11)], none⟩] := by
  refine ⟨by decide, by decide, by decide⟩

/-- C2 amended: a result row that is missing an expected column (or whose
expected column set carries a read-disabled column) is not merely skipped:
nothing of that row is assigned to its source instance, and the early
`return` also leaves every later row — across all remaining statement
results — unapplied, while rows processed before it keep their effect. -/
theorem c2_row_abort_semantics (columnSet : List ColumnDetail) (row : ResultRow)
    (h : ∃ c ∈ columnSet,
      hasProp row.fields c.dbName = false ∨ c.config.colIn.isFalseFlag = true) :
    (∀ rec, applyRowToRecord columnSet rec row = none) ∧
    (∀ (records : List DbRecordObj) (pre rest : List ResultRow),
      updateRows columnSet records (pre ++ row :: rest) =
        updateRows columnSet records pre) := by
  have habort : rowAborts columnSet row = true := by
    rcases h with ⟨c, hc, hcase⟩
    refine List.any_eq_true.mpr ⟨c, hc, ?_⟩
    rcases hcase with h1 | h1 <;> simp [h1]
  have hnone : buildColumnData columnSet row = none :=
    (buildColumnData_none_iff columnSet row).mpr habort
  have happly : ∀ rec, applyRowToRecord columnSet rec row = none := by
    intro rec
    unfold applyRowToRecord
    rw [hnone]
    rfl
  refine ⟨happly, ?_⟩
  intro records pre rest
  induction pre generalizing records with
  | nil =>
      show updateRows columnSet records (row :: rest) = records
      unfold updateRows
      rw [happly]
  | cons p ps ih =>
      show updateRows columnSet records (p :: (ps ++ row :: rest)) =
        updateRows columnSet records (p :: ps)
      unfold updateRows
      cases happ : applyRowToRecord columnSet (records.getD p.dbRecordIndex default) p with
      | none => rfl
      | some rec2 => exact ih _

/-- Witness for C2 amended: the missing-column row of the counterexample
aborts reconciliation of the rows after it. -/
theorem c2_row_abort_semantics_witness :
    (∃ c ∈ setWorkerColumnSet exC2Cols .Record,
      hasProp [("x", JsValue.vInt 9)] c.dbName = false ∨
        c.config.colIn.isFalseFlag = true) ∧
    updateRows (setWorkerColumnSet exC2Cols .Record)
        [⟨[("a", .vInt 0)], none⟩, ⟨[("a", .vInt 1)], none⟩]
        ([] ++ ⟨0, [("x", .vInt 9)]⟩ :: [⟨1, [("a", .vInt 11)]⟩]) =
      updateRows (setWorkerColumnSet exC2Cols .Record)
        [⟨[("a", .vInt 0)], none⟩, ⟨[("a", .vInt 1)], none⟩] [] :=
  ⟨⟨⟨"a", "a", exACol⟩, List.mem_singleton.mpr rfl, Or.inl rfl⟩,
    (c2_row_abort_semantics (setWorkerColumnSet exC2Cols .Record) ⟨0, [("x", .vInt 9)]⟩
      ⟨⟨"a", "a", exACol⟩, List.mem_singleton.mpr rfl, Or.inl rfl⟩).2
      [⟨[("a", .vInt 0)], none⟩, ⟨[("a", .vInt 1)], none⟩] [] [⟨1, [("a", .vInt 11)]⟩]⟩

/- ********************************************************************** -/
/-  C1                                                                    -/
/- ********************************************************************** -/

/-- Lemma: a row that does not abort is applied as `applyRowFields`. -/
theorem applyRowToRecord_eq_some (columnSet : List ColumnDetail) (rec : DbRecordObj)
    (row : ResultRow) (h : rowAborts columnSet row = false) :
    applyRowToRecord columnSet rec row = some (applyRowFields columnSet rec row) := by
  cases hcd : buildColumnData columnSet row with
  | none =>
      have := (buildColumnData_none_iff columnSet row).mp hcd
      rw [this] at h
      cases h
  | some cd =>
      unfold applyRowToRecord applyRowFields
      rw [hcd]
      rfl

/-- Lemma: rows whose record index differs from `i` leave position `i`
untouched. -/
theorem updateRows_getElem?_stable (columnSet : List ColumnDetail)
    (rows : List ResultRow) :
    ∀ (records : List DbRecordObj) (i : Nat),
      (∀ r ∈ rows, r.dbRecordIndex ≠ i) →
      (updateRows columnSet records rows)[i]? = records[i]? := by
  induction rows with
  | nil => intro records i _; rfl
  | cons r rest ih =>
      intro records i h
      unfold updateRows
      cases applyRowToRecord columnSet (records.getD r.dbRecordIndex default) r with
      | none => rfl
      | some rec2 =>
          rw [ih _ i fun r2 hr2 => h r2 (List.mem_cons_of_mem _ hr2)]
          exact List.getElem?_set_ne (h r (List.mem_cons_self r rest))

/-- Lemma: reconciliation preserves the batch length. -/
theorem updateRows_length (columnSet : List ColumnDetail) (rows : List ResultRow) :
    ∀ records : List DbRecordObj,
      (updateRows columnSet records rows).length = records.length := by
  induction rows with
  | nil => intro records; rfl
  | cons r rest ih =>
      intro records
      unfold updateRows
      cases applyRowToRecord columnSet (records.getD r.dbRecordIndex default) r with
      | none => rfl
      | some rec2 => rw [ih]; exact records.length_set r.dbRecordIndex rec2

theorem getElem?_eq_some_getD {α : Type} {l : List α} {i : Nat} (hi : i < l.length)
    (d : α) : l[i]? = some (l.getD i d) := by
  rw [List.getD_eq_getElem?_getD, List.getElem?_eq_getElem hi]
  rfl

theorem getD_set_ne {α : Type} (l : List α) {j i : Nat} (a : α) (d : α) (h : j ≠ i) :
    (l.set j a).getD i d = l.getD i d := by
  rw [List.getD_eq_getElem?_getD, List.getD_eq_getElem?_getD, List.getElem?_set_ne h]

/-- Lemma (index correlation): after reconciling a row list whose record
indices are pairwise distinct, in range, and none of whose rows abort, the
instance at position `i` is the original one updated by exactly the row
whose `__dbRecordIndex__` equals `i` (unchanged if there is no such row) —
regardless of where in the list that row sits. -/
theorem updateRows_getElem?_of_nodup (columnSet : List ColumnDetail)
    (rows : List ResultRow) :
    ∀ (records : List DbRecordObj),
      (∀ r ∈ rows, rowAborts columnSet r = false) →
      ((rows.map ResultRow.dbRecordIndex).Nodup) →
      (∀ r ∈ rows, r.dbRecordIndex < records.length) →
      ∀ i : Nat, i < records.length →
        (updateRows columnSet records rows)[i]? =
          some (match rows.find? (fun r => r.dbRecordIndex == i) with
            | some row => applyRowFields columnSet (records.getD i default) row
            | none => records.getD i default) := by
  induction rows with
  | nil =>
      intro records _ _ _ i hi
      exact getElem?_eq_some_getD hi default
  | cons r rest ih =>
      intro records hgood hnodup hvalid i hi
      have hg := hgood r (List.mem_cons_self r rest)
      have hstep : updateRows columnSet records (r :: rest) =
          updateRows columnSet
            (records.set r.dbRecordIndex
              (applyRowFields columnSet (records.getD r.dbRecordIndex default) r))
            rest := by
        show (match applyRowToRecord columnSet (records.getD r.dbRecordIndex default) r with
          | none => records
          | some rec2 => updateRows columnSet (records.set r.dbRecordIndex rec2) rest) = _
        rw [applyRowToRecord_eq_some columnSet _ r hg]
      rw [hstep]
      have hlen2 : (records.set r.dbRecordIndex
          (applyRowFields columnSet (records.getD r.dbRecordIndex default) r)).length =
          records.length := records.length_set _ _
      by_cases hri : r.dbRecordIndex = i
      · have hfind : (r :: rest).find? (fun r2 => r2.dbRecordIndex == i) = some r :=
          List.find?_cons_of_pos _ (by simp [hri])
        rw [hfind]
        have hrest : ∀ r2 ∈ rest, r2.dbRecordIndex ≠ i := by
          intro r2 hr2 hcontra
          have hnotin := (List.nodup_cons.mp hnodup).1
          exact hnotin (by
            rw [hri, ← hcontra] at *
            exact List.mem_map_of_mem ResultRow.dbRecordIndex hr2)
        rw [updateRows_getElem?_stable columnSet rest _ i hrest]
        rw [← hri]
        rw [List.getElem?_set_self (by rw [hri]; exact hi)]
      · have hfind : (r :: rest).find? (fun r2 => r2.dbRecordIndex == i) =
            rest.find? (fun r2 => r2.dbRecordIndex == i) :=
          List.find?_cons_of_neg _ (by simp [hri])
        rw [hfind]
        have hres := ih
          (records.set r.dbRecordIndex
            (applyRowFields columnSet (records.getD r.dbRecordIndex default) r))
          (fun r2 hr2 => hgood r2 (List.mem_cons_of_mem _ hr2))
          (List.nodup_cons.mp hnodup).2
          (fun r2 hr2 => by rw [hlen2]; exact hvalid r2 (List.mem_cons_of_mem _ hr2))
          i (by rw [hlen2]; exact hi)
        rw [hres, getD_set_ne records _ default hri]

theorem find?_eq_head?_filter {α : Type} (p : α → Bool) (l : List α) :
    l.find? p = (l.filter p).head? := by
  induction l with
  | nil => rfl
  | cons a as ih =>
      cases hpa : p a with
      | true =>
          rw [List.find?_cons_of_pos _ hpa, List.filter_cons_of_pos hpa]
          rfl
      | false =>
          rw [List.find?_cons_of_neg _ (by simp [hpa]),
            List.filter_cons_of_neg (by simp [hpa]), ih]

theorem length_filter_le_one_of_nodup_map {α : Type} (f : α → Nat) {l : List α}
    (h : (l.map f).Nodup) (i : Nat) :
    (l.filter fun x => f x == i).length ≤ 1 := by
  have hsub : ((l.filter fun x => f x == i).map f).Sublist (l.map f) :=
    (List.filter_sublist l).map f
  have hnd : ((l.filter fun x => f x == i).map f).Nodup := hsub.nodup h
  have hall : ∀ y ∈ (l.filter fun x => f x == i).map f, y = i := by
    intro y hy
    rcases List.mem_map.mp hy with ⟨x, hx, rfl⟩
    have hx2 := (List.mem_filter.mp hx).2
    simpa using hx2
  rcases hfl : l.filter fun x => f x == i with _ | ⟨a, _ | ⟨b, t⟩⟩
  · simp
  · simp
  · exfalso
    rw [hfl] at hnd hall
    have ha := hall (f a) (by simp)
    have hb := hall (f b) (by simp)
    have hne : f a ≠ f b := by
      intro he
      exact (List.nodup_cons.mp hnd).1 (he ▸ List.mem_cons_self _ _)
    exact hne (ha.trans hb.symm)

theorem find?_perm_of_nodup_map {α : Type} (f : α → Nat) {l l2 : List α}
    (hperm : l.Perm l2) (h : (l.map f).Nodup) (i : Nat) :
    l.find? (fun x => f x == i) = l2.find? (fun x => f x == i) := by
  rw [find?_eq_head?_filter, find?_eq_head?_filter]
  have hpf : (l.filter fun x => f x == i).Perm (l2.filter fun x => f x == i) :=
    hperm.filter _
  have hl1 := length_filter_le_one_of_nodup_map f h i
  rcases hc : l.filter fun x => f x == i with _ | ⟨a, t⟩
  · rw [hc] at hpf
    rw [List.Perm.eq_nil hpf.symm]
  · rw [hc] at hpf hl1
    have ht : t = [] := by
      have : t.length = 0 := by simpa using hl1
      exact List.length_eq_zero.mp this
    subst ht
    rw [List.singleton_perm.mp hpf]

/-- C1: reconciliation of write results assigns each returned row to the
source instance at position `row.__dbRecordIndex__` — for well-formed
result rows (each carrying every expected column) with pairwise distinct,
in-range record indices, the outcome is invariant under any permutation of
the returned rows, and the instance at position `i` ends up updated by
exactly the row whose record index equals `i` (untouched if none exists). -/
theorem c1_reconciliation_correlates_by_record_index
    (cols : List (String × ColumnConfig)) (resultType : SetQueryResultType)
    (records : List DbRecordObj) (results results2 : List (List ResultRow))
    (_hrt : resultType ≠ .None)
    (hperm : results2.flatten.Perm results.flatten)
    (hgood : ∀ r ∈ results.flatten,
      rowAborts (setWorkerColumnSet cols resultType) r = false)
    (hnodup : (results.flatten.map ResultRow.dbRecordIndex).Nodup)
    (hvalid : ∀ r ∈ results.flatten, r.dbRecordIndex < records.length) :
    updateDbRecordObjects cols resultType records results2 =
      updateDbRecordObjects cols resultType records results ∧
    ∀ i : Nat, i < records.length →
      (updateDbRecordObjects cols resultType records results)[i]? =
        some (match results.flatten.find? (fun r => r.dbRecordIndex == i) with
          | some row => applyRowFields (setWorkerColumnSet cols resultType)
              (records.getD i default) row
          | none => records.getD i default) := by
  have hgood2 : ∀ r ∈ results2.flatten,
      rowAborts (setWorkerColumnSet cols resultType) r = false :=
    fun r hr => hgood r (hperm.subset hr)
  have hnodup2 : (results2.flatten.map ResultRow.dbRecordIndex).Nodup :=
    ((hperm.map ResultRow.dbRecordIndex).nodup_iff).mpr hnodup
  have hvalid2 : ∀ r ∈ results2.flatten, r.dbRecordIndex < records.length :=
    fun r hr => hvalid r (hperm.subset hr)
  have q1 := updateRows_getElem?_of_nodup (setWorkerColumnSet cols resultType)
    results.flatten records hgood hnodup hvalid
  have q2 := updateRows_getElem?_of_nodup (setWorkerColumnSet cols resultType)
    results2.flatten records hgood2 hnodup2 hvalid2
  constructor
  · apply List.ext_getElem?
    intro i
    by_cases hi : i < records.length
    · show (updateRows _ records results2.flatten)[i]? =
        (updateRows _ records results.flatten)[i]?
      rw [q1 i hi, q2 i hi,
        find?_perm_of_nodup_map ResultRow.dbRecordIndex hperm hnodup2 i]
    · have h1 : (updateRows (setWorkerColumnSet cols resultType) records
          results2.flatten).length ≤ i := by
        rw [updateRows_length]; omega
      have h2 : (updateRows (setWorkerColumnSet cols resultType) records
          results.flatten).length ≤ i := by
        rw [updateRows_length]; omega
      show (updateRows _ records results2.flatten)[i]? =
        (updateRows _ records results.flatten)[i]?
      rw [List.getElem?_eq_none h1, List.getElem?_eq_none h2]
  · exact q1

/-- Witness for C1: a two-record batch whose result rows come back in
reversed order reconciles identically to the in-order result. -/
theorem c1_reconciliation_correlates_by_record_index_witness :
    (SetQueryResultType.Record ≠ SetQueryResultType.None) ∧
    (([[⟨1, [("id", JsValue.vInt 2), ("a", JsValue.vInt 20), ("b", JsValue.vInt 200)]⟩,
        ⟨0, [("id", JsValue.vInt 1), ("a", JsValue.vInt 10), ("b", JsValue.vInt 100)]⟩]] :
        List (List ResultRow)).flatten.Perm
      ([[⟨0, [("id", JsValue.vInt 1), ("a", JsValue.vInt 10), ("b", JsValue.vInt 100)]⟩,
        ⟨1, [("id", JsValue.vInt 2), ("a", JsValue.vInt 20), ("b", JsValue.vInt 200)]⟩]] :
        List (List ResultRow)).flatten) ∧
    updateDbRecordObjects exCols .Record
        [⟨[("id", .vInt 1)], none⟩, ⟨[("id", .vInt 2)], none⟩]
        [[⟨1, [("id", .vInt 2), ("a", .vInt 20), ("b", .vInt 200)]⟩,
          ⟨0, [("id", .vInt 1), ("a", .vInt 10), ("b", .vInt 100)]⟩]] =
      updateDbRecordObjects exCols .Record
        [⟨[("id", .vInt 1)], none⟩, ⟨[("id", .vInt 2)], none⟩]
        [[⟨0, [("id", .vInt 1), ("a", .vInt 10), ("b", .vInt 100)]⟩,
          ⟨1, [("id", .vInt 2), ("a", .vInt 20), ("b", .vInt 200)]⟩]] :=
  ⟨by decide, by decide,
    (c1_reconciliation_correlates_by_record_index exCols .Record
      [⟨[("id", .vInt 1)], none⟩, ⟨[("id", .vInt 2)], none⟩]
      [[⟨0, [("id", .vInt 1), ("a", .vInt 10), ("b", .vInt 100)]⟩,
        ⟨1, [("id", .vInt 2), ("a", .vInt 20), ("b", .vInt 200)]⟩]]
      [[⟨1, [("id", .vInt 2), ("a", .vInt 20), ("b", .vInt 200)]⟩,
        ⟨0, [("id", .vInt 1), ("a", .vInt 10), ("b", .vInt 100)]⟩]]
      (by decide) (by decide) (by decide) (by decide) (by decide)).1⟩

/- ********************************************************************** -/
/-  C3                                                                    -/
/- ********************************************************************** -/

/-- C3 counterexample: for an update of a single never-persisted instance
that lacks an own `b` property, the claim's written set — the union of
changed-column sets, with the snapshot-less instance contributing its full
write-column set `{id, a, b}` — differs from the code's written set, which
first intersects with the keys present on some instance (`knownKeys`) and
therefore selects only `a`. -/
theorem c3_known_keys_restrict_update_columns_cx :
    ((getColumns exCols .update {} [⟨[("a", .vInt 1)], none⟩]).insertableColumns.map
      fun c => c.name) = ["a"] ∧
    ((getChangedColumns exCols ⟨[("a", .vInt 1)], none⟩).map fun c => c.name) =
      ["id", "a", "b"] ∧
    ("b" ∈ (getChangedColumns exCols ⟨[("a", .vInt 1)], none⟩).map fun c => c.name) ∧
    ("b" ∉ (getColumns exCols .update {} [⟨[("a", .vInt 1)], none⟩]).insertableColumns.map
      fun c => c.name) := by
  refine ⟨by decide, by decide, by decide, by decide⟩

/-- The pairs one output column contributes to its output object (the
DB-named value, plus in update mode the `original_` snapshot value of a
primary-key column). -/
def outputEmit (cols : List (String × ColumnConfig)) (mode : SetMode)
    (options : SetQueryOptions) (records : List DbRecordObj)
    (rec : DbRecordObj) (c : ColumnDetail) : List (String × JsValue) :=
  (c.dbName, outputValue cols mode options records rec c) ::
    (if mode == .update && c.config.primaryKey.isSome then
      [("original_" ++ c.dbName, jsGetP (rec.original.getD rec.values) c.name)]
    else [])

/-- The ordered key list of one output object. -/
def outputObjectKeys (cols : List (String × ColumnConfig)) (mode : SetMode)
    (options : SetQueryOptions) (records : List DbRecordObj) : List String :=
  (outputColumnsList cols mode options records).flatMap fun c =>
    c.dbName ::
      (if mode == .update && c.config.primaryKey.isSome then ["original_" ++ c.dbName]
      else [])

theorem foldl_jsSetKey_append {β : Type} :
    ∀ (pairs : List (String × β)) (acc : List (String × β)),
      (pairs.map Prod.fst).Nodup →
      (∀ k ∈ pairs.map Prod.fst, acc.any (fun p => p.1 = k) = false) →
      pairs.foldl (fun a p => jsSetKey a p.1 p.2) acc = acc ++ pairs := by
  intro pairs
  induction pairs with
  | nil => intro acc _ _; simp
  | cons hd rest ih =>
      intro acc hnodup hdisj
      have hk : acc.any (fun p => p.1 = hd.1) = false :=
        hdisj hd.1 (by simp)
      have hstep : jsSetKey acc hd.1 hd.2 = acc ++ [hd] := by
        unfold jsSetKey
        rw [hk]
        simp
      show List.foldl (fun a p => jsSetKey a p.1 p.2) (jsSetKey acc hd.1 hd.2) rest =
        acc ++ hd :: rest
      rw [hstep]
      rw [ih (acc ++ [hd]) (List.nodup_cons.mp (by simpa using hnodup)).2 ?_]
      · simp
      · intro k hkrest
        rw [List.any_append]
        have h1 : acc.any (fun p => p.1 = k) = false :=
          hdisj k (by simp [hkrest])
        have h2 : [hd].any (fun p => p.1 = k) = false := by
          have : hd.1 ∉ rest.map Prod.fst :=
            (List.nodup_cons.mp (by simpa using hnodup)).1
          have hne : hd.1 ≠ k := fun he => this (he ▸ hkrest)
          simp [hne]
        rw [h1, h2]
        rfl

theorem outputObjectFields_eq_flatMap (cols : List (String × ColumnConfig))
    (mode : SetMode) (options : SetQueryOptions) (records : List DbRecordObj)
    (rec : DbRecordObj)
    (hkeys : (outputObjectKeys cols mode options records).Nodup) :
    outputObjectFields cols mode options records rec =
      (outputColumnsList cols mode options records).flatMap
        (outputEmit cols mode options records rec) := by
  have hfold : ∀ (l : List ColumnDetail) (acc : List (String × JsValue)),
      l.foldl
        (fun acc c =>
          let acc1 := jsSetKey acc c.dbName (outputValue cols mode options records rec c)
          if mode == .update && c.config.primaryKey.isSome then
            jsSetKey acc1 ("original_" ++ c.dbName)
              (jsGetP (rec.original.getD rec.values) c.name)
          else acc1)
        acc =
      (l.flatMap (outputEmit cols mode options records rec)).foldl
        (fun a p => jsSetKey a p.1 p.2) acc := by
    intro l
    induction l with
    | nil => intro acc; rfl
    | cons c restl ihl =>
        intro acc
        show List.foldl _ _ restl = _
        rw [ihl]
        have hflat : (c :: restl).flatMap (outputEmit cols mode options records rec) =
            outputEmit cols mode options records rec c ++
              restl.flatMap (outputEmit cols mode options records rec) := by
          simp
        rw [hflat, List.foldl_append]
        congr 1
        by_cases hcond : (mode == .update && c.config.primaryKey.isSome) = true
        · simp only [outputEmit, hcond, if_true, List.foldl_cons, List.foldl_nil]
        · rw [Bool.not_eq_true] at hcond
          simp only [outputEmit, hcond, Bool.false_eq_true, if_false, List.foldl_cons,
            List.foldl_nil]
  have hkeysmap : ((outputColumnsList cols mode options records).flatMap
      (outputEmit cols mode options records rec)).map Prod.fst =
      outputObjectKeys cols mode options records := by
    rw [List.map_flatMap]
    unfold outputObjectKeys
    congr 1
    funext c
    by_cases hcond : (mode == .update && c.config.primaryKey.isSome) = true
    · simp [outputEmit, hcond]
    · rw [Bool.not_eq_true] at hcond
      simp [outputEmit, hcond]
  show (outputColumnsList cols mode options records).foldl _ [] = _
  rw [hfold]
  rw [foldl_jsSetKey_append _ [] (by rw [hkeysmap]; exact hkeys) (by intro k _; rfl)]
  simp

theorem lookup_of_nodup_keys {β : Type} :
    ∀ (pairs : List (String × β)), (pairs.map Prod.fst).Nodup →
      ∀ {k : String} {v : β}, (k, v) ∈ pairs → pairs.lookup k = some v := by
  intro pairs
  induction pairs with
  | nil => intro _ k v hm; cases hm
  | cons hd rest ih =>
      obtain ⟨k1, v1⟩ := hd
      intro hnodup k v hm
      rcases List.mem_cons.mp hm with he | hmr
      · cases he
        simp [List.lookup]
      · have hne : k ≠ k1 := by
          intro he
          exact (List.nodup_cons.mp (by simpa using hnodup)).1
            (he ▸ List.mem_map_of_mem Prod.fst hmr)
        have hb : (k == k1) = false := by simp [hne]
        simp only [List.lookup, hb]
        exact ih (List.nodup_cons.mp (by simpa using hnodup)).2 hmr

theorem map_fst_flatMap_outputEmit (cols : List (String × ColumnConfig))
    (mode : SetMode) (options : SetQueryOptions) (records : List DbRecordObj)
    (rec : DbRecordObj) :
    ((outputColumnsList cols mode options records).flatMap
      (outputEmit cols mode options records rec)).map Prod.fst =
      outputObjectKeys cols mode options records := by
  rw [List.map_flatMap]
  unfold outputObjectKeys
  congr 1
  funext c
  by_cases hcond : (mode == .update && c.config.primaryKey.isSome) = true
  · simp [outputEmit, hcond]
  · rw [Bool.not_eq_true] at hcond
    simp [outputEmit, hcond]

/-- C3 amended: for `update` without an explicit `columns` option (and a
well-formed config with distinct property keys), the written column set is
the set of write columns that are BOTH present as an own property on at
least one instance of the batch (`knownKeys`) AND changed on at least one
instance — where an instance with no snapshot counts every write column as
changed and an instance with a snapshot counts exactly the strictly (`!==`)
differing ones; and each encoded instance supplies, for every output
column, its own transformed current value under that column's DB name. -/
theorem c3_update_column_selection_amended
    (cols : List (String × ColumnConfig)) (options : SetQueryOptions)
    (records : List DbRecordObj)
    (hopt : options.columns = none) :
    (∀ c : ColumnDetail,
      c ∈ (getColumns cols .update options records).insertableColumns ↔
        (c ∈ getInsertColumns cols ∧ knownKey records c.name = true ∧
          ∃ rec ∈ records,
            rec.original = none ∨
              ∃ orig, rec.original = some orig ∧
                jsGetP orig c.name ≠ jsGetP rec.values c.name)) ∧
    ((outputObjectKeys cols .update options records).Nodup →
      ∀ rec ∈ records, ∀ c ∈ outputColumnsList cols .update options records,
        (outputObjectFields cols .update options records rec).lookup c.dbName =
          some (outputValue cols .update options records rec c)) := by
  constructor
  · have hsel : (getColumns cols .update options records).insertableColumns =
        ((getInsertColumns cols).filter fun c => knownKey records c.name).filter
          (fun c => records.any fun rec =>
            (getChangedColumns cols rec).any fun c2 => c2.name = c.name) := by
      unfold getColumns
      rw [hopt]
      rfl
    intro c
    rw [hsel, List.mem_filter, List.mem_filter]
    constructor
    · rintro ⟨⟨hc, hknown⟩, hany⟩
      refine ⟨hc, hknown, ?_⟩
      rcases List.any_eq_true.mp hany with ⟨rec, hrec, hin⟩
      rcases List.any_eq_true.mp hin with ⟨c2, hc2, hname⟩
      have hname2 : c2.name = c.name := of_decide_eq_true hname
      refine ⟨rec, hrec, ?_⟩
      cases ho : rec.original with
      | none => exact Or.inl rfl
      | some orig =>
          refine Or.inr ⟨orig, rfl, ?_⟩
          have hc2m : c2 ∈ getInsertColumns cols ∧
              (jsGetP orig c2.name != jsGetP rec.values c2.name) = true := by
            have h2 := hc2
            unfold getChangedColumns at h2
            rw [ho] at h2
            exact List.mem_filter.mp h2
          rw [← hname2]
          exact bne_iff_ne.mp hc2m.2
    · rintro ⟨hc, hknown, rec, hrec, hcase⟩
      refine ⟨⟨hc, hknown⟩, ?_⟩
      refine List.any_eq_true.mpr ⟨rec, hrec, ?_⟩
      refine List.any_eq_true.mpr ⟨c, ?_, by simp⟩
      rcases hcase with ho | ⟨orig, ho, hdiff⟩
      · unfold getChangedColumns
        rw [ho]
        exact hc
      · unfold getChangedColumns
        rw [ho]
        exact List.mem_filter.mpr ⟨hc, bne_iff_ne.mpr hdiff⟩
  · intro hkeys rec _ c hc
    rw [outputObjectFields_eq_flatMap cols .update options records rec hkeys]
    refine lookup_of_nodup_keys _ ?_ ?_
    · rw [map_fst_flatMap_outputEmit]
      exact hkeys
    · exact List.mem_flatMap.mpr ⟨c, hc, List.mem_cons_self _ _⟩

/-- Witness for C3 amended: a one-instance batch with snapshot
`{id: 5, a: 0}` and current values `{id: 5, a: 1}`. -/
theorem c3_update_column_selection_amended_witness :
    (({} : SetQueryOptions).columns = none) ∧
    ((⟨"a", "a", exACol⟩ : ColumnDetail) ∈
        (getColumns exCols .update {}
          [⟨[("id", .vInt 5), ("a", .vInt 1)], some [("id", .vInt 5), ("a", .vInt 0)]⟩]).insertableColumns ↔
      ((⟨"a", "a", exACol⟩ : ColumnDetail) ∈ getInsertColumns exCols ∧
        knownKey [⟨[("id", .vInt 5), ("a", .vInt 1)], some [("id", .vInt 5), ("a", .vInt 0)]⟩] "a" = true ∧
        ∃ rec ∈ [(⟨[("id", .vInt 5), ("a", .vInt 1)], some [("id", .vInt 5), ("a", .vInt 0)]⟩ : DbRecordObj)],
          rec.original = none ∨
            ∃ orig, rec.original = some orig ∧
              jsGetP orig "a" ≠ jsGetP rec.values "a")) ∧
    (outputObjectFields exCols .update {}
        [⟨[("id", .vInt 5), ("a", .vInt 1)], some [("id", .vInt 5), ("a", .vInt 0)]⟩]
        ⟨[("id", .vInt 5), ("a", .vInt 1)], some [("id", .vInt 5), ("a", .vInt 0)]⟩).lookup "a" =
      some (outputValue exCols .update {}
        [⟨[("id", .vInt 5), ("a", .vInt 1)], some [("id", .vInt 5), ("a", .vInt 0)]⟩]
        ⟨[("id", .vInt 5), ("a", .vInt 1)], some [("id", .vInt 5), ("a", .vInt 0)]⟩
        ⟨"a", "a", exACol⟩) :=
  ⟨rfl,
    (c3_update_column_selection_amended exCols {}
      [⟨[("id", .vInt 5), ("a", .vInt 1)], some [("id", .vInt 5), ("a", .vInt 0)]⟩]
      rfl).1 ⟨"a", "a", exACol⟩,
    (c3_update_column_selection_amended exCols {}
      [⟨[("id", .vInt 5), ("a", .vInt 1)], some [("id", .vInt 5), ("a", .vInt 0)]⟩]
      rfl).2 (by decide)
      ⟨[("id", .vInt 5), ("a", .vInt 1)], some [("id", .vInt 5), ("a", .vInt 0)]⟩
      (List.mem_singleton.mpr rfl) ⟨"a", "a", exACol⟩ (List.mem_cons_self _ _)⟩
